import Mathlib

/-!
# Verification of the log timing extractor (`main.py`)

Shallow embedding of the single-file log timing extractor `get_timing_info`
from `main.py`, together with the subcommand classifier
`extract_codeql_command`, and proofs about them.

Modelling choices:
* A raw log line is used by the code only through two projections: the
  timestamp parsed from its first 26 characters (`extract_timestamp(line)`)
  and the payload `line[29:]`.  We therefore embed a line as the pair of an
  abstract instant (an integer; differences of instants model
  `(t1 - t2).total_seconds()`) and the payload string.
* Python's `l.startswith(p)` is modelled as `p.data.isPrefixOf l.data` and
  `sub in l` as a character-list substring test.
* A raised Python exception is modelled as `Except.error`; arithmetic on a
  `None` span start (a `TypeError` in Python) is the error `Err.noneSub`.
-/

namespace VariantAnalysis

instance {ε α : Type} [DecidableEq ε] [DecidableEq α] : DecidableEq (Except ε α)
  | .error a, .error b =>
      if h : a = b then .isTrue (by simp [h]) else .isFalse (by simp [h])
  | .error _, .ok _ => .isFalse (by simp)
  | .ok _, .error _ => .isFalse (by simp)
  | .ok a, .ok b =>
      if h : a = b then .isTrue (by simp [h]) else .isFalse (by simp [h])

/-- A log line as `get_timing_info` consumes it: the timestamp parsed from the
line's fixed-width prefix, and the payload `line[29:]`. -/
structure RawLine where
  t : Int
  payload : String
deriving DecidableEq

/-- Model of Python's `l.startswith(p)`. -/
def pyStartswith (l p : String) : Bool :=
  p.data.isPrefixOf l.data

/-- Character-list substring occurrence test (helper for `pyIn`). -/
def subOccurs (n : List Char) : List Char → Bool
  | [] => n.isEmpty
  | c :: cs => n.isPrefixOf (c :: cs) || subOccurs n cs

/-- Model of Python's `sub in l` substring test. -/
def pyIn (sub l : String) : Bool :=
  subOccurs sub.data l.data

/-- Model of Python's slice `l[n:]` (character based). -/
def pyDrop (l : String) (n : Nat) : String :=
  ⟨l.data.drop n⟩

/-- Model of Python's `s.strip()`: remove leading and trailing whitespace. -/
def pyStrip (l : String) : String :=
  ⟨(((l.data.dropWhile Char.isWhitespace).reverse.dropWhile Char.isWhitespace).reverse)⟩

/-- `known_codeql_commands` (main.py lines 30-38). -/
def known_codeql_commands : List String :=
  ["database unbundle", "database run-queries", "database interpret-results",
   "bqrs info", "resolve queries", "resolve metadata", "resolve database"]

/-- `extract_codeql_command` (main.py lines 40-44), parametrised by the
vocabulary list; `none` models the raised
`Unable to extract codeql command from ...` exception. -/
def extract_codeql_command_over (cmds : List String) (l : String) : Option String :=
  cmds.find? fun c =>
    pyIn ("codeql/codeql " ++ c) l || pyIn ("Running using CodeQL CLI: " ++ c) l

/-- `extract_codeql_command` specialised to the fixed vocabulary, as used by
`get_timing_info`. -/
def extract_codeql_command (l : String) : Option String :=
  extract_codeql_command_over known_codeql_commands l

/-- The exceptions `get_timing_info` can raise.  `noneSub` models a Python
`TypeError` from subtracting a `None` span start (an end marker with no
matching open span, the spec's *MalformedSpan*); `noRepos` and `noRepoTime`
model the two final `raise` statements (the spec's *EmptyResult*). -/
inductive Err where
  | unrecognizedCommand (l : String)
  | noneSub
  | noRepos
  | noRepoTime
deriving DecidableEq

/-- `Err.noRepos` and `Err.noRepoTime` are the spec's *EmptyResult*. -/
def Err.isEmptyResult : Err → Bool
  | .noRepos => true
  | .noRepoTime => true
  | _ => false

/-- `Err.noneSub` is the spec's *MalformedSpan*. -/
def Err.isMalformedSpan : Err → Bool
  | .noneSub => true
  | _ => false

/-- The mutable locals of `get_timing_info` (main.py lines 47-62). -/
structure S where
  num_repos : Nat
  setup_time_s : Int
  repo_time_s : Int
  download_time_s : Int
  codeql_command_times_s : List (String × Int)
  starting_job : Option Int
  starting_repo : Option Int
  current_repo : Option String
  starting_download : Option Int
  starting_command : Option Int
  current_command : Option String
  job_time : Option Int
  repo_times : List (Option String × Int)
deriving DecidableEq

/-- The state before the line loop (main.py lines 47-62). -/
def initState : S where
  num_repos := 0
  setup_time_s := 0
  repo_time_s := 0
  download_time_s := 0
  codeql_command_times_s := known_codeql_commands.map fun c => (c, 0)
  starting_job := none
  starting_repo := none
  current_repo := none
  starting_download := none
  starting_command := none
  current_command := none
  job_time := none
  repo_times := []

/-- `codeql_command_times_s[c] += v`.  The key is always present: it is
produced by `extract_codeql_command` from the same `known_codeql_commands`
list that the dictionary was initialised from. -/
def bump (d : List (String × Int)) (c : String) (v : Int) : List (String × Int) :=
  d.map fun p => if p.1 = c then (p.1, p.2 + v) else p

/-- Guard of main.py line 69. -/
def isJobStartB (l : String) : Bool :=
  decide (l = "##[debug]Starting: Set up job\n")

/-- Guard of main.py line 72. -/
def isItemBeginB (l : String) : Bool :=
  pyStartswith l "Getting database for "

/-- Guard of main.py line 92. -/
def isToolInvocationB (l : String) : Bool :=
  pyStartswith l "[command]/opt/hostedtoolcache/CodeQL/" ||
    pyStartswith l "##[debug]Running using CodeQL CLI:"

/-- Guard of main.py line 107. -/
def isJobEndB (l : String) : Bool :=
  decide (l = "##[debug]Finishing: Run query\n")

/-- Body of the `Getting database for ` branch (main.py lines 72-90). -/
def stepItemBegin (s : S) (t : Int) (l : String) : Except Err S :=
  -- lines 75-77: close the open item span, if any
  let s1 :=
    match s.current_repo, s.starting_repo with
    | some cr, some sr =>
        { s with repo_time_s := s.repo_time_s + (t - sr)
                 repo_times := s.repo_times ++ [(some cr, t - sr)] }
    | _, _ => s
  -- lines 78-79
  let s2 := { s1 with current_repo := some (pyStrip (pyDrop l 21)), starting_repo := some t }
  -- lines 81-82: `if setup_time_s == 0: setup_time_s = (t - starting_job).total_seconds()`
  let setupStep : Except Err S :=
    if s2.setup_time_s = 0 then
      match s2.starting_job with
      | none => .error .noneSub
      | some sj => .ok { s2 with setup_time_s := t - sj }
    else .ok s2
  setupStep.bind fun s3 =>
    -- lines 84-87: close the open command span, if any
    let s4 :=
      match s3.current_command, s3.starting_command with
      | some cc, some sc =>
          { s3 with codeql_command_times_s := bump s3.codeql_command_times_s cc (t - sc)
                    current_command := none
                    starting_command := none }
      | _, _ => s3
    -- lines 89-90
    .ok { s4 with starting_download := some t, num_repos := s4.num_repos + 1 }

/-- Body of the tool-invocation branch (main.py lines 92-105). -/
def stepTool (s : S) (t : Int) (l : String) : Except Err S :=
  -- lines 95-97: close download tracking, if active
  let s1 :=
    match s.starting_download with
    | some sd =>
        { s with download_time_s := s.download_time_s + (t - sd), starting_download := none }
    | none => s
  -- lines 99-102: close the open command span, if any
  let s2 :=
    match s1.current_command, s1.starting_command with
    | some cc, some sc =>
        { s1 with codeql_command_times_s := bump s1.codeql_command_times_s cc (t - sc)
                  current_command := none
                  starting_command := none }
    | _, _ => s1
  -- lines 104-105
  match extract_codeql_command l with
  | none => .error (.unrecognizedCommand l)
  | some c => .ok { s2 with current_command := some c, starting_command := some t }

/-- Body of the `Finishing: Run query` branch (main.py lines 107-117). -/
def stepJobEnd (s : S) (t : Int) : Except Err S :=
  -- lines 110-113: close the open command span, if any
  let s1 :=
    match s.current_command, s.starting_command with
    | some cc, some sc =>
        { s with codeql_command_times_s := bump s.codeql_command_times_s cc (t - sc)
                 current_command := none
                 starting_command := none }
    | _, _ => s
  -- lines 115-117
  match s1.starting_repo with
  | none => .error .noneSub
  | some sr =>
    match s1.starting_job with
    | none => .error .noneSub
    | some sj =>
      .ok { s1 with repo_time_s := s1.repo_time_s + (t - sr)
                    repo_times := s1.repo_times ++ [(s1.current_repo, t - sr)]
                    job_time := some (t - sj) }

/-- One iteration of the line loop of `get_timing_info`
(main.py lines 67-117): an `if/elif` chain over the payload. -/
def step (s : S) (line : RawLine) : Except Err S :=
  let l := line.payload
  if isJobStartB l then .ok { s with starting_job := some line.t }
  else if isItemBeginB l then stepItemBegin s line.t l
  else if isToolInvocationB l then stepTool s line.t l
  else if isJobEndB l then stepJobEnd s line.t
  else .ok s

/-- The line loop. -/
def runLines (s : S) : List RawLine → Except Err S
  | [] => .ok s
  | line :: rest => (step s line).bind fun s' => runLines s' rest

/-- The tuple returned by `get_timing_info` (main.py line 124). -/
structure TimingResult where
  num_repos : Nat
  setup_time_s : Int
  repo_time_s : Int
  download_time_s : Int
  codeql_command_times_s : List (String × Int)
  job_time : Option Int
  repo_times : List (Option String × Int)
deriving DecidableEq

/-- `get_timing_info` (main.py lines 46-124) on the list of lines of the file. -/
def get_timing_info (lines : List RawLine) : Except Err TimingResult :=
  (runLines initState lines).bind fun s =>
    if s.num_repos = 0 then .error .noRepos
    else if s.repo_time_s = 0 then .error .noRepoTime
    else .ok ⟨s.num_repos, s.setup_time_s, s.repo_time_s, s.download_time_s,
              s.codeql_command_times_s, s.job_time, s.repo_times⟩

/-! ## Log line constructors and well-formed log families -/

/-- A Job-start marker line. -/
def jobStartLine (t : Int) : RawLine :=
  ⟨t, "##[debug]Starting: Set up job\n"⟩

/-- An Item-begin marker line for the repository `id`. -/
def itemBeginLine (t : Int) (id : String) : RawLine :=
  ⟨t, "Getting database for " ++ (id ++ "\n")⟩

/-- A tool-invocation marker line invoking the subcommand `c`. -/
def toolLine (t : Int) (c : String) : RawLine :=
  ⟨t, "[command]/opt/hostedtoolcache/CodeQL/2.20.3/x64/codeql/codeql " ++ (c ++ " --arg\n")⟩

/-- The Job-end marker line recognised by main.py line 107. -/
def jobEndLine (t : Int) : RawLine :=
  ⟨t, "##[debug]Finishing: Run query\n"⟩

/-- One item of a well-formed log: its begin timestamp, its identifier, and
the (timestamp, subcommand) list of the tool invocations inside it. -/
structure Item where
  t : Int
  id : String
  cmds : List (Int × String)
deriving DecidableEq

/-- The lines contributed by one item. -/
def itemLines (it : Item) : List RawLine :=
  itemBeginLine it.t it.id :: it.cmds.map fun c => toolLine c.1 c.2

/-- The lines contributed by a list of items. -/
def itemsLines : List Item → List RawLine
  | [] => []
  | it :: rest => itemLines it ++ itemsLines rest

/-- A single-file log of the shape the spec calls well-formed: a Job-start
marker, the items' lines, and a terminating Job-end marker. -/
def wfLog (t0 : Int) (items : List Item) (tEnd : Int) : List RawLine :=
  jobStartLine t0 :: (itemsLines items ++ [jobEndLine tEnd])

/-- The marker timestamps contributed by one item, in order. -/
def itemTimes (it : Item) : List Int :=
  it.t :: it.cmds.map Prod.fst

/-- The marker timestamps contributed by a list of items, in order. -/
def itemsTimes : List Item → List Int
  | [] => []
  | it :: rest => itemTimes it ++ itemsTimes rest

/-- All marker timestamps of `wfLog t0 items tEnd`, in order. -/
def logTimes (t0 : Int) (items : List Item) (tEnd : Int) : List Int :=
  t0 :: (itemsTimes items ++ [tEnd])

/-- The download span of one item: time from the item's begin marker to its
first tool invocation (zero if the item contains none). -/
def dlTime (it : Item) : Int :=
  match it.cmds with
  | [] => 0
  | c :: _ => c.1 - it.t

/-- Sum of the items' download spans. -/
def sumDl : List Item → Int
  | [] => 0
  | it :: rest => dlTime it + sumDl rest

/-- Well-formedness of `wfLog t0 items tEnd`: at least one item, every tool
invocation names a known subcommand, and the marker timestamps strictly
increase along the file. -/
def WellFormed (t0 : Int) (items : List Item) (tEnd : Int) : Prop :=
  items ≠ [] ∧
  (∀ it ∈ items, ∀ c ∈ it.cmds, c.2 ∈ known_codeql_commands) ∧
  List.Chain' (· < ·) (logTimes t0 items tEnd)

/-- Executable check that a list of instants strictly increases. -/
def strictIncrB : List Int → Bool
  | [] => true
  | [_] => true
  | a :: b :: rest => decide (a < b) && strictIncrB (b :: rest)

theorem strictIncrB_iff : ∀ l : List Int, strictIncrB l = true ↔ List.Chain' (· < ·) l
  | [] => by simp [strictIncrB]
  | [a] => by simp [strictIncrB]
  | a :: b :: rest => by
    rw [List.chain'_cons, ← strictIncrB_iff (b :: rest)]
    simp [strictIncrB]

instance (t0 : Int) (items : List Item) (tEnd : Int) :
    Decidable (WellFormed t0 items tEnd) :=
  decidable_of_iff
    (items ≠ [] ∧ (∀ it ∈ items, ∀ c ∈ it.cmds, c.2 ∈ known_codeql_commands) ∧
      strictIncrB (logTimes t0 items tEnd) = true)
    (by rw [strictIncrB_iff]; exact Iff.rfl)

/-! ## Concrete logs used as counterexamples and witnesses -/

/-- The §8 two-item scenario exactly as the spec writes it, terminated by the
`Finishing: Complete job` debug line. -/
def sec8CompleteLog : List RawLine :=
  [⟨0, "##[debug]Starting: Set up job\n"⟩,
   ⟨2, "Getting database for repoA\n"⟩,
   ⟨5, "[command]/opt/hostedtoolcache/CodeQL/2.20.3/x64/codeql/codeql database run-queries --threads=4\n"⟩,
   ⟨9, "Getting database for repoB\n"⟩,
   ⟨10, "[command]/opt/hostedtoolcache/CodeQL/2.20.3/x64/codeql/codeql database run-queries --threads=4\n"⟩,
   ⟨15, "##[debug]Finishing: Complete job\n"⟩]

/-- The §8 two-item scenario terminated by the Job-end line the code
actually recognises. -/
def sec8RunQueryLog : List RawLine :=
  [⟨0, "##[debug]Starting: Set up job\n"⟩,
   ⟨2, "Getting database for repoA\n"⟩,
   ⟨5, "[command]/opt/hostedtoolcache/CodeQL/2.20.3/x64/codeql/codeql database run-queries --threads=4\n"⟩,
   ⟨9, "Getting database for repoB\n"⟩,
   ⟨10, "[command]/opt/hostedtoolcache/CodeQL/2.20.3/x64/codeql/codeql database run-queries --threads=4\n"⟩,
   ⟨15, "##[debug]Finishing: Run query\n"⟩]

/-- The §8 scenario as a member of the well-formed family. -/
def sec8Items : List Item :=
  [⟨2, "repoA", [(5, "database run-queries")]⟩,
   ⟨9, "repoB", [(10, "database run-queries")]⟩]

/-- A two-item log with no Job-end marker at all. -/
def unterminatedLog : List RawLine :=
  [jobStartLine 0, itemBeginLine 2 "repoA", itemBeginLine 9 "repoB"]

/-- A tool-invocation payload naming a subcommand outside the vocabulary. -/
def badPayload : String :=
  "[command]/opt/hostedtoolcache/CodeQL/2.20.3/x64/codeql/codeql database export-diagnostics --format=raw\n"

/-- A log whose item contains the unrecognized invocation `badPayload`. -/
def badCommandLog : List RawLine :=
  [jobStartLine 0, itemBeginLine 2 "repoA", ⟨5, badPayload⟩]

/-- A log opening with a tool invocation (no prior Job-start or Item-begin)
that is nevertheless parsed successfully thanks to the later items. -/
def toolFirstRescuedLog : List RawLine :=
  [toolLine 0 "resolve queries", jobStartLine 1, itemBeginLine 2 "repoA",
   itemBeginLine 3 "repoB", jobEndLine 4]

/-- A log whose only markers are a tool invocation and a Job-end. -/
def toolThenEndLog : List RawLine :=
  [toolLine 0 "resolve queries", jobEndLine 5]

/-! ## Guard and single-step lemmas -/

theorem isPrefixOf_self_append (l r : List Char) : l.isPrefixOf (l ++ r) = true := by
  induction l with
  | nil => simp [List.isPrefixOf]
  | cons a as ih => simp [List.isPrefixOf, ih]

theorem isItemBeginB_itemBegin (t : Int) (id : String) :
    isItemBeginB (itemBeginLine t id).payload = true := by
  show pyStartswith ("Getting database for " ++ (id ++ "\n")) "Getting database for " = true
  unfold pyStartswith
  rw [String.data_append]
  exact isPrefixOf_self_append _ _

theorem isJobStartB_itemBegin (t : Int) (id : String) :
    isJobStartB (itemBeginLine t id).payload = false := by
  apply decide_eq_false
  intro h
  have hb := isItemBeginB_itemBegin t id
  rw [h] at hb
  exact absurd hb (by decide)

theorem step_of_itemBegin (s : S) (ln : RawLine)
    (h1 : isJobStartB ln.payload = false) (h2 : isItemBeginB ln.payload = true) :
    step s ln = stepItemBegin s ln.t ln.payload := by
  simp [step, h1, h2]

theorem step_of_tool (s : S) (ln : RawLine)
    (h1 : isJobStartB ln.payload = false) (h2 : isItemBeginB ln.payload = false)
    (h3 : isToolInvocationB ln.payload = true) :
    step s ln = stepTool s ln.t ln.payload := by
  simp [step, h1, h2, h3]

theorem step_of_jobEnd (s : S) (ln : RawLine)
    (h1 : isJobStartB ln.payload = false) (h2 : isItemBeginB ln.payload = false)
    (h3 : isToolInvocationB ln.payload = false) (h4 : isJobEndB ln.payload = true) :
    step s ln = stepJobEnd s ln.t := by
  simp [step, h1, h2, h3, h4]

theorem step_of_skip (s : S) (ln : RawLine)
    (h1 : isJobStartB ln.payload = false) (h2 : isItemBeginB ln.payload = false)
    (h3 : isToolInvocationB ln.payload = false) (h4 : isJobEndB ln.payload = false) :
    step s ln = .ok s := by
  simp [step, h1, h2, h3, h4]

theorem step_jobStartLine (s : S) (t : Int) :
    step s (jobStartLine t) = .ok { s with starting_job := some t } := rfl

theorem step_jobEndLine (s : S) (t : Int) :
    step s (jobEndLine t) = stepJobEnd s t := rfl

theorem toolLine_payload (t : Int) (c : String) :
    (toolLine t c).payload =
      "[command]/opt/hostedtoolcache/CodeQL/2.20.3/x64/codeql/codeql " ++ (c ++ " --arg\n") :=
  rfl

theorem toolLine_guards (c : String) (hc : c ∈ known_codeql_commands) (t : Int) :
    isJobStartB (toolLine t c).payload = false ∧
    isItemBeginB (toolLine t c).payload = false ∧
    isToolInvocationB (toolLine t c).payload = true ∧
    extract_codeql_command (toolLine t c).payload = some c := by
  fin_cases hc <;> rw [toolLine_payload] <;> exact ⟨by decide, by decide, by decide, by decide⟩

/-- Effect of an Item-begin line when an item span is already open and the
setup accumulator is already non-zero. -/
theorem stepItemBegin_next_spec (s : S) (t : Int) (l : String) (cr : String) (sr : Int)
    (hcr : s.current_repo = some cr) (hsr : s.starting_repo = some sr)
    (hsetup : s.setup_time_s ≠ 0) :
    ∃ s', stepItemBegin s t l = .ok s' ∧
      s'.num_repos = s.num_repos + 1 ∧
      s'.setup_time_s = s.setup_time_s ∧
      s'.repo_time_s = s.repo_time_s + (t - sr) ∧
      s'.download_time_s = s.download_time_s ∧
      s'.repo_times = s.repo_times ++ [(some cr, t - sr)] ∧
      s'.starting_job = s.starting_job ∧
      s'.starting_repo = some t ∧
      (∃ cr', s'.current_repo = some cr') ∧
      s'.starting_download = some t ∧
      s'.job_time = s.job_time := by
  rcases hcc : s.current_command with _ | cc <;> rcases hsc : s.starting_command with _ | sc <;>
    simp [stepItemBegin, Except.bind, hcr, hsr, hsetup, hcc, hsc]

/-- Effect of the first Item-begin line of a file: no item span is open yet
and the setup accumulator is still zero. -/
theorem stepItemBegin_first_spec (s : S) (t : Int) (l : String) (sj : Int)
    (hcr : s.current_repo = none) (hsetup : s.setup_time_s = 0)
    (hsj : s.starting_job = some sj) :
    ∃ s', stepItemBegin s t l = .ok s' ∧
      s'.num_repos = s.num_repos + 1 ∧
      s'.setup_time_s = t - sj ∧
      s'.repo_time_s = s.repo_time_s ∧
      s'.download_time_s = s.download_time_s ∧
      s'.repo_times = s.repo_times ∧
      s'.starting_job = s.starting_job ∧
      s'.starting_repo = some t ∧
      (∃ cr', s'.current_repo = some cr') ∧
      s'.starting_download = some t ∧
      s'.job_time = s.job_time := by
  rcases hcc : s.current_command with _ | cc <;> rcases hsc : s.starting_command with _ | sc <;>
    simp [stepItemBegin, Except.bind, hcr, hsetup, hsj, hcc, hsc]

/-- Effect of a tool-invocation line for a known subcommand. -/
theorem step_toolLine_spec (s : S) (t : Int) (c : String) (hc : c ∈ known_codeql_commands) :
    ∃ s', step s (toolLine t c) = .ok s' ∧
      s'.num_repos = s.num_repos ∧
      s'.setup_time_s = s.setup_time_s ∧
      s'.repo_time_s = s.repo_time_s ∧
      s'.download_time_s = s.download_time_s +
        (match s.starting_download with | some sd => t - sd | none => 0) ∧
      s'.repo_times = s.repo_times ∧
      s'.starting_job = s.starting_job ∧
      s'.starting_repo = s.starting_repo ∧
      s'.current_repo = s.current_repo ∧
      s'.starting_download = none ∧
      s'.job_time = s.job_time := by
  obtain ⟨h1, h2, h3, h4⟩ := toolLine_guards c hc t
  rw [step_of_tool s _ h1 h2 h3]
  rcases hsd : s.starting_download with _ | sd <;>
    rcases hcc : s.current_command with _ | cc <;>
    rcases hsc : s.starting_command with _ | sc <;>
    simp [stepTool, h4, hsd, hcc, hsc] <;> rfl

/-- Effect of the Job-end line when both an item span and the job span are
open. -/
theorem stepJobEnd_spec (s : S) (t sr sj : Int)
    (hsr : s.starting_repo = some sr) (hsj : s.starting_job = some sj) :
    ∃ s', stepJobEnd s t = .ok s' ∧
      s'.num_repos = s.num_repos ∧
      s'.setup_time_s = s.setup_time_s ∧
      s'.repo_time_s = s.repo_time_s + (t - sr) ∧
      s'.download_time_s = s.download_time_s ∧
      s'.repo_times.length = s.repo_times.length + 1 ∧
      s'.job_time = some (t - sj) := by
  rcases hcc : s.current_command with _ | cc <;> rcases hsc : s.starting_command with _ | sc <;>
    simp [stepJobEnd, hsr, hsj, hcc, hsc]

/-- The Job-end line fails (a `TypeError` on `t - starting_repo`) when no
item span was ever opened. -/
theorem stepJobEnd_noItem (s : S) (t : Int) (hsr : s.starting_repo = none) :
    stepJobEnd s t = .error .noneSub := by
  rcases hcc : s.current_command with _ | cc <;> rcases hsc : s.starting_command with _ | sc <;>
    simp [stepJobEnd, hsr, hcc, hsc]

/-! ## Run-level lemmas -/

theorem runLines_append (s : S) (xs ys : List RawLine) :
    runLines s (xs ++ ys) = (runLines s xs).bind fun s' => runLines s' ys := by
  induction xs generalizing s with
  | nil => simp [runLines, Except.bind]
  | cons x xs ih =>
    cases h : step s x with
    | error e => simp [runLines, Except.bind, h]
    | ok s1 => simp [runLines, Except.bind, h, ih]

/-- Effect of a run of tool-invocation lines (the tail of one item's lines):
only download tracking, the command span and the command totals move. -/
theorem run_toolLines :
    ∀ cmds : List (Int × String), (∀ c ∈ cmds, c.2 ∈ known_codeql_commands) →
    ∀ s : S, ∃ s', runLines s (cmds.map fun c => toolLine c.1 c.2) = .ok s' ∧
      s'.num_repos = s.num_repos ∧
      s'.setup_time_s = s.setup_time_s ∧
      s'.repo_time_s = s.repo_time_s ∧
      s'.download_time_s = s.download_time_s +
        (match s.starting_download, cmds with
         | some sd, c0 :: _ => c0.1 - sd
         | _, _ => 0) ∧
      s'.repo_times = s.repo_times ∧
      s'.starting_job = s.starting_job ∧
      s'.starting_repo = s.starting_repo ∧
      s'.current_repo = s.current_repo ∧
      s'.starting_download = (match s.starting_download, cmds with
         | some sd, [] => some sd
         | _, _ => none) ∧
      s'.job_time = s.job_time := by
  intro cmds
  induction cmds with
  | nil =>
    intro _ s
    refine ⟨s, rfl, rfl, rfl, rfl, ?_, rfl, rfl, rfl, rfl, ?_, rfl⟩ <;>
      cases s.starting_download <;> simp
  | cons c cs ih =>
    intro hk s
    obtain ⟨s1, hstep, hnum, hsetup, hrepo, hdl, hrt, hsj, hsr, hcr, hsd, hjt⟩ :=
      step_toolLine_spec s c.1 c.2 (hk c (List.mem_cons_self c cs))
    obtain ⟨s2, hrun, gnum, gsetup, grepo, gdl, grt, gsj, gsr, gcr, gsd, gjt⟩ :=
      ih (fun x hx => hk x (List.mem_cons_of_mem c hx)) s1
    refine ⟨s2, ?_, ?_, ?_, ?_, ?_, ?_, ?_, ?_, ?_, ?_, ?_⟩
    · simp [runLines, Except.bind, hstep, hrun]
    · rw [gnum, hnum]
    · rw [gsetup, hsetup]
    · rw [grepo, hrepo]
    · rw [gdl, hsd, hdl]
      cases s.starting_download <;> simp
    · rw [grt, hrt]
    · rw [gsj, hsj]
    · rw [gsr, hsr]
    · rw [gcr, hcr]
    · rw [gsd, hsd]
      cases s.starting_download <;> simp
    · rw [gjt, hjt]

theorem itemBeginLine_t (t : Int) (id : String) : (itemBeginLine t id).t = t := rfl

/-- Effect of a full item (its begin marker and its tool invocations) when an
item span is already open and setup time is already recorded. -/
theorem run_item (it : Item) (hk : ∀ c ∈ it.cmds, c.2 ∈ known_codeql_commands)
    (s : S) (cr : String) (sr : Int)
    (hcr : s.current_repo = some cr) (hsr : s.starting_repo = some sr)
    (hsetup : s.setup_time_s ≠ 0) :
    ∃ s', runLines s (itemLines it) = .ok s' ∧
      s'.num_repos = s.num_repos + 1 ∧
      s'.setup_time_s = s.setup_time_s ∧
      s'.repo_time_s = s.repo_time_s + (it.t - sr) ∧
      s'.download_time_s = s.download_time_s + dlTime it ∧
      s'.repo_times.length = s.repo_times.length + 1 ∧
      s'.starting_job = s.starting_job ∧
      s'.starting_repo = some it.t ∧
      (∃ cr', s'.current_repo = some cr') ∧
      s'.job_time = s.job_time := by
  obtain ⟨s1, hstep, hnum, hsetup1, hrepo, hdl, hrt, hsj, hsr1, hcr1, hsd, hjt⟩ :=
    stepItemBegin_next_spec s it.t (itemBeginLine it.t it.id).payload cr sr hcr hsr hsetup
  obtain ⟨s2, hrun, gnum, gsetup, grepo, gdl, grt, gsj, gsr, gcr, gsd, gjt⟩ :=
    run_toolLines it.cmds hk s1
  have hline : step s (itemBeginLine it.t it.id) = .ok s1 := by
    rw [step_of_itemBegin s _ (isJobStartB_itemBegin it.t it.id) (isItemBeginB_itemBegin it.t it.id),
      itemBeginLine_t]
    exact hstep
  refine ⟨s2, ?_, ?_, ?_, ?_, ?_, ?_, ?_, ?_, ?_, ?_⟩
  · simp [itemLines, runLines, Except.bind, hline, hrun]
  · rw [gnum, hnum]
  · rw [gsetup, hsetup1]
  · rw [grepo, hrepo]
  · rw [gdl, hsd]
    cases hc : it.cmds <;> simp [hdl, dlTime, hc]
  · rw [grt, hrt]
    simp
  · rw [gsj, hsj]
  · rw [gsr, hsr1]
  · obtain ⟨cr', hcr'⟩ := hcr1
    exact ⟨cr', by rw [gcr, hcr']⟩
  · rw [gjt, hjt]

/-- The begin timestamp of the last item of the list, `d` if empty. -/
def lastT : List Item → Int → Int
  | [], d => d
  | it :: rest, _ => lastT rest it.t

/-- Effect of a list of full items processed from a state with an open item
span and recorded setup time. -/
theorem run_items :
    ∀ pending : List Item, (∀ it ∈ pending, ∀ c ∈ it.cmds, c.2 ∈ known_codeql_commands) →
    ∀ (s : S) (cr : String) (sr : Int), s.current_repo = some cr → s.starting_repo = some sr →
    s.setup_time_s ≠ 0 →
    ∃ s', runLines s (itemsLines pending) = .ok s' ∧
      s'.num_repos = s.num_repos + pending.length ∧
      s'.setup_time_s = s.setup_time_s ∧
      s'.repo_time_s = s.repo_time_s + (lastT pending sr - sr) ∧
      s'.download_time_s = s.download_time_s + sumDl pending ∧
      s'.repo_times.length = s.repo_times.length + pending.length ∧
      s'.starting_job = s.starting_job ∧
      s'.starting_repo = some (lastT pending sr) ∧
      (∃ cr', s'.current_repo = some cr') ∧
      s'.job_time = s.job_time := by
  intro pending
  induction pending with
  | nil =>
    intro _ s cr sr hcr hsr _
    exact ⟨s, rfl, by simp, rfl, by simp [lastT], by simp [sumDl], by simp [itemsLines],
      rfl, by rw [hsr]; simp [lastT], ⟨cr, hcr⟩, rfl⟩
  | cons it rest ih =>
    intro hk s cr sr hcr hsr hsetup
    obtain ⟨s1, hrun1, hnum, hsetup1, hrepo, hdl, hrt, hsj, hsr1, ⟨cr1, hcr1⟩, hjt⟩ :=
      run_item it (hk it (List.mem_cons_self it rest)) s cr sr hcr hsr hsetup
    obtain ⟨s2, hrun2, gnum, gsetup, grepo, gdl, grt, gsj, gsr, gcr, gjt⟩ :=
      ih (fun x hx => hk x (List.mem_cons_of_mem it hx)) s1 cr1 it.t hcr1 hsr1
        (by rw [hsetup1]; exact hsetup)
    refine ⟨s2, ?_, ?_, ?_, ?_, ?_, ?_, ?_, ?_, gcr, ?_⟩
    · rw [show itemsLines (it :: rest) = itemLines it ++ itemsLines rest from rfl,
        runLines_append, hrun1]
      exact hrun2
    · rw [gnum, hnum]
      simp [List.length_cons]
      omega
    · rw [gsetup, hsetup1]
    · rw [grepo, hrepo]
      simp [lastT]
      omega
    · rw [gdl, hdl]
      simp [sumDl]
      omega
    · rw [grt, hrt]
      simp [List.length_cons]
      omega
    · rw [gsj, hsj]
    · rw [gsr]
      simp [lastT]
    · rw [gjt, hjt]

/-- From strictly increasing marker timestamps: the job starts before the
first item, and the first item begins before the job ends. -/
theorem wellFormed_bounds (t0 tEnd : Int) (f : Item) (rest : List Item)
    (h : List.Chain' (· < ·) (logTimes t0 (f :: rest) tEnd)) :
    t0 < f.t ∧ f.t < tEnd := by
  have hshape : logTimes t0 (f :: rest) tEnd =
      t0 :: f.t :: (f.cmds.map Prod.fst ++ (itemsTimes rest ++ [tEnd])) := by
    simp [logTimes, itemsTimes, itemTimes]
  rw [hshape] at h
  rcases List.chain'_cons.mp h with ⟨h01, h1⟩
  refine ⟨h01, ?_⟩
  rw [List.chain'_iff_pairwise] at h1
  rcases List.pairwise_cons.mp h1 with ⟨hall, -⟩
  exact hall tEnd (by simp)

/-- Final state and result of `get_timing_info` on a well-formed log. -/
theorem wf_run_spec (t0 tEnd : Int) (f : Item) (rest : List Item)
    (hk : ∀ it ∈ f :: rest, ∀ c ∈ it.cmds, c.2 ∈ known_codeql_commands)
    (h0 : t0 < f.t) (hEnd : f.t < tEnd) :
    ∃ r, get_timing_info (wfLog t0 (f :: rest) tEnd) = .ok r ∧
      r.num_repos = rest.length + 1 ∧
      r.setup_time_s = f.t - t0 ∧
      r.repo_time_s = tEnd - f.t ∧
      r.download_time_s = sumDl (f :: rest) ∧
      r.job_time = some (tEnd - t0) ∧
      r.repo_times.length = rest.length + 1 := by
  obtain ⟨s1, hstep1, f_num, f_setup, f_repo, f_dl, f_rt, f_sj, f_sr, f_cr, f_sd, f_jt⟩ :=
    stepItemBegin_first_spec { initState with starting_job := some t0 } f.t
      (itemBeginLine f.t f.id).payload t0 rfl rfl rfl
  obtain ⟨s2, hrun2, t_num, t_setup, t_repo, t_dl, t_rt, t_sj, t_sr, t_cr, t_sd, t_jt⟩ :=
    run_toolLines f.cmds (hk f (List.mem_cons_self f rest)) s1
  obtain ⟨cr1, hcr1⟩ := f_cr
  have hsetup2 : s2.setup_time_s ≠ 0 := by
    rw [t_setup, f_setup]; omega
  obtain ⟨s3, hrun3, i_num, i_setup, i_repo, i_dl, i_rt, i_sj, i_sr, i_cr, i_jt⟩ :=
    run_items rest (fun x hx => hk x (List.mem_cons_of_mem f hx)) s2 cr1 f.t
      (by rw [t_cr]; exact hcr1) (by rw [t_sr]; exact f_sr) hsetup2
  obtain ⟨s4, hstep4, e_num, e_setup, e_repo, e_dl, e_rtlen, e_jt⟩ :=
    stepJobEnd_spec s3 tEnd (lastT rest f.t) t0 i_sr
      (by rw [i_sj, t_sj, f_sj])
  have hbegin : step { initState with starting_job := some t0 } (itemBeginLine f.t f.id)
      = .ok s1 := by
    rw [step_of_itemBegin _ _ (isJobStartB_itemBegin f.t f.id) (isItemBeginB_itemBegin f.t f.id),
      itemBeginLine_t]
    exact hstep1
  have hend : step s3 (jobEndLine tEnd) = .ok s4 := by
    rw [step_jobEndLine]; exact hstep4
  have hfull : runLines initState (wfLog t0 (f :: rest) tEnd) = .ok s4 := by
    rw [show wfLog t0 (f :: rest) tEnd =
      jobStartLine t0 :: ((itemLines f ++ itemsLines rest) ++ [jobEndLine tEnd]) from rfl]
    rw [show itemLines f = itemBeginLine f.t f.id :: (f.cmds.map fun c => toolLine c.1 c.2)
      from rfl]
    simp [runLines, runLines_append, Except.bind, step_jobStartLine, hbegin, hrun2, hrun3, hend]
  have hnum4 : s4.num_repos = rest.length + 1 := by
    rw [e_num, i_num, t_num, f_num]
    simp [initState]
    omega
  have hsetup4 : s4.setup_time_s = f.t - t0 := by
    rw [e_setup, i_setup, t_setup, f_setup]
  have hrepo4 : s4.repo_time_s = tEnd - f.t := by
    rw [e_repo, i_repo, t_repo, f_repo]
    simp [initState]
  have hdl4 : s4.download_time_s = sumDl (f :: rest) := by
    rw [e_dl, i_dl, t_dl, f_dl, f_sd]
    rw [show sumDl (f :: rest) = dlTime f + sumDl rest from rfl]
    cases hc : f.cmds <;> simp [dlTime, hc, initState]
  have hrt4 : s4.repo_times.length = rest.length + 1 := by
    rw [e_rtlen, i_rt, t_rt, f_rt]
    simp [initState]
  have hjt4 : s4.job_time = some (tEnd - t0) := e_jt
  have hrepo_ne : ¬ s4.repo_time_s = 0 := by rw [hrepo4]; omega
  have hnum_ne : ¬ s4.num_repos = 0 := by rw [hnum4]; omega
  refine ⟨⟨s4.num_repos, s4.setup_time_s, s4.repo_time_s, s4.download_time_s,
    s4.codeql_command_times_s, s4.job_time, s4.repo_times⟩, ?_,
    hnum4, hsetup4, hrepo4, hdl4, hjt4, hrt4⟩
  unfold get_timing_info
  rw [hfull]
  simp [Except.bind, hnum_ne, hrepo_ne]

theorem step_of_jobStart (s : S) (ln : RawLine) (h1 : isJobStartB ln.payload = true) :
    step s ln = .ok { s with starting_job := some ln.t } := by
  simp [step, h1]

/-- An Item-begin step that succeeds leaves the job accumulator as it was. -/
theorem stepItemBegin_ok_job_time (s : S) (t : Int) (l : String) (s' : S)
    (h : stepItemBegin s t l = .ok s') : s'.job_time = s.job_time := by
  rcases hcr : s.current_repo with _ | cr <;> rcases hsr : s.starting_repo with _ | sr <;>
    rcases hsj : s.starting_job with _ | sj <;>
    rcases hcc : s.current_command with _ | cc <;> rcases hsc : s.starting_command with _ | sc <;>
    by_cases hz : s.setup_time_s = 0 <;>
    simp [stepItemBegin, Except.bind, hcr, hsr, hsj, hcc, hsc, hz] at h <;>
    subst h <;> rfl

/-- A tool-invocation step that succeeds leaves the job accumulator and the
item span as they were. -/
theorem stepTool_ok_frame (s : S) (t : Int) (l : String) (s' : S)
    (h : stepTool s t l = .ok s') :
    s'.job_time = s.job_time ∧ s'.starting_repo = s.starting_repo := by
  rcases hsd : s.starting_download with _ | sd <;>
    rcases hcc : s.current_command with _ | cc <;> rcases hsc : s.starting_command with _ | sc <;>
    rcases hx : extract_codeql_command l with _ | c <;>
    simp [stepTool, hsd, hcc, hsc, hx] at h <;>
    subst h <;> exact ⟨rfl, rfl⟩

/-- A tool-invocation line with a recognised subcommand always succeeds and
does not touch the item span. -/
theorem stepTool_some_spec (s : S) (t : Int) (l : String) (c : String)
    (hx : extract_codeql_command l = some c) :
    ∃ s', stepTool s t l = .ok s' ∧ s'.starting_repo = s.starting_repo := by
  rcases hsd : s.starting_download with _ | sd <;>
    rcases hcc : s.current_command with _ | cc <;> rcases hsc : s.starting_command with _ | sc <;>
    simp [stepTool, hx, hsd, hcc, hsc]

/-- As long as no Job-end marker is seen, a successful run leaves the job
accumulator as it was (only the Job-end branch ever sets it). -/
theorem runLines_ok_no_jobEnd_job_time :
    ∀ (lines : List RawLine) (s s' : S), (∀ ln ∈ lines, isJobEndB ln.payload = false) →
      runLines s lines = .ok s' → s'.job_time = s.job_time := by
  intro lines
  induction lines with
  | nil =>
    intro s s' _ h
    simp only [runLines] at h
    simp only [Except.ok.injEq] at h
    rw [← h]
  | cons ln rest ih =>
    intro s s' hno h
    have hje := hno ln (List.mem_cons_self ln rest)
    simp only [runLines] at h
    cases hstep : step s ln with
    | error e => rw [hstep] at h; simp [Except.bind] at h
    | ok s1 =>
      rw [hstep] at h
      simp only [Except.bind] at h
      have h1 : s1.job_time = s.job_time := by
        cases h1 : isJobStartB ln.payload with
        | true =>
          rw [step_of_jobStart s ln h1] at hstep
          simp only [Except.ok.injEq] at hstep
          rw [← hstep]
        | false =>
          cases h2 : isItemBeginB ln.payload with
          | true =>
            rw [step_of_itemBegin s ln h1 h2] at hstep
            exact stepItemBegin_ok_job_time _ _ _ _ hstep
          | false =>
            cases h3 : isToolInvocationB ln.payload with
            | true =>
              rw [step_of_tool s ln h1 h2 h3] at hstep
              exact (stepTool_ok_frame _ _ _ _ hstep).1
            | false =>
              rw [step_of_skip s ln h1 h2 h3 hje] at hstep
              simp only [Except.ok.injEq] at hstep
              rw [← hstep]
      rw [ih s1 s' (fun x hx => hno x (List.mem_cons_of_mem ln hx)) h, h1]

/-- A run over lines containing a Job-end marker but no Item-begin marker
(and only recognised tool invocations) fails with the `None` subtraction at
the Job-end: the implied item close finds no open item span. -/
theorem runLines_noItem_jobEnd_fails :
    ∀ (lines : List RawLine) (s : S), s.starting_repo = none →
      (∀ ln ∈ lines, isItemBeginB ln.payload = false) →
      (∀ ln ∈ lines, isToolInvocationB ln.payload = true →
        (extract_codeql_command ln.payload).isSome = true) →
      (∃ ln ∈ lines, isJobEndB ln.payload = true) →
      runLines s lines = .error .noneSub := by
  intro lines
  induction lines with
  | nil =>
    intro s _ _ _ hex
    simp at hex
  | cons ln rest ih =>
    intro s hsr hni htool hex
    cases hje : isJobEndB ln.payload with
    | true =>
      have hpl : ln.payload = "##[debug]Finishing: Run query\n" := of_decide_eq_true hje
      simp only [runLines]
      rw [step_of_jobEnd s ln (by rw [hpl]; decide) (by rw [hpl]; decide) (by rw [hpl]; decide)
        hje, stepJobEnd_noItem s _ hsr]
      rfl
    | false =>
      have hrest : ∃ ln0 ∈ rest, isJobEndB ln0.payload = true := by
        rcases hex with ⟨ln0, hmem, hend0⟩
        rcases List.mem_cons.mp hmem with h | h
        · rw [h] at hend0; rw [hend0] at hje; cases hje
        · exact ⟨ln0, h, hend0⟩
      have hni' := fun x hx => hni x (List.mem_cons_of_mem ln hx)
      have htool' := fun x hx => htool x (List.mem_cons_of_mem ln hx)
      have h2 := hni ln (List.mem_cons_self ln rest)
      cases h1 : isJobStartB ln.payload with
      | true =>
        simp only [runLines]
        rw [step_of_jobStart s ln h1]
        simp only [Except.bind]
        exact ih _ hsr hni' htool' hrest
      | false =>
        cases h3 : isToolInvocationB ln.payload with
        | true =>
          obtain ⟨c, hc⟩ := Option.isSome_iff_exists.mp
            (htool ln (List.mem_cons_self ln rest) h3)
          obtain ⟨s1, hs1, hs1r⟩ := stepTool_some_spec s ln.t ln.payload c hc
          simp only [runLines]
          rw [step_of_tool s ln h1 h2 h3, hs1]
          simp only [Except.bind]
          exact ih s1 (by rw [hs1r]; exact hsr) hni' htool' hrest
        | false =>
          simp only [runLines]
          rw [step_of_skip s ln h1 h2 h3 hje]
          simp only [Except.bind]
          exact ih s hsr hni' htool' hrest

/-- Effect of an Item-begin line when an item span is open but the setup
accumulator is still zero (the first item began exactly at job start):
setup time is recorded now, from job start to this marker. -/
theorem stepItemBegin_zero_setup_spec (s : S) (t : Int) (l : String) (cr : String) (sr sj : Int)
    (hcr : s.current_repo = some cr) (hsr : s.starting_repo = some sr)
    (hsetup : s.setup_time_s = 0) (hsj : s.starting_job = some sj) :
    ∃ s', stepItemBegin s t l = .ok s' ∧
      s'.setup_time_s = t - sj ∧
      s'.repo_time_s = s.repo_time_s + (t - sr) ∧
      s'.starting_repo = some t ∧
      (∃ cr', s'.current_repo = some cr') ∧
      s'.starting_job = s.starting_job ∧
      s'.num_repos = s.num_repos + 1 ∧
      s'.job_time = s.job_time := by
  rcases hcc : s.current_command with _ | cc <;> rcases hsc : s.starting_command with _ | sc <;>
    simp [stepItemBegin, Except.bind, hcr, hsr, hsetup, hsj, hcc, hsc]

/-! ## Claims -/

/-- C1 counterexample: on the §8 two-item scenario (terminated by
`Finishing: Complete job`, which the spec lists as a Job-end marker) the
extractor reports a setup time of 2 seconds, not the 7 seconds the claim
computes with its `(job-end − last item-end)` term. -/
theorem c1_counterexample :
    (get_timing_info sec8CompleteLog).map TimingResult.setup_time_s = .ok 2 ∧
    (get_timing_info sec8CompleteLog).map TimingResult.setup_time_s ≠ .ok 7 := by
  exact ⟨by decide, by decide⟩

/-- C1 (amended): for every well-formed single-file log the reported setup
time equals the first item-start timestamp minus the job-start timestamp
alone; the `(job-end − last item-end)` term of the claim is identically zero
because the last item span closes exactly at the Job-end marker. -/
theorem c1_setup_time (t0 tEnd : Int) (f : Item) (rest : List Item)
    (h : WellFormed t0 (f :: rest) tEnd) :
    (get_timing_info (wfLog t0 (f :: rest) tEnd)).map TimingResult.setup_time_s
      = .ok (f.t - t0) := by
  obtain ⟨-, hk, hchain⟩ := h
  obtain ⟨h0, hEnd⟩ := wellFormed_bounds t0 tEnd f rest hchain
  obtain ⟨r, hok, -, hsetup, -, -, -, -⟩ := wf_run_spec t0 tEnd f rest hk h0 hEnd
  rw [hok, Except.map, hsetup]

/-- C1 witness: the amended claim applied to the §8 scenario (with the
Job-end marker the code recognises) gives setup time 2 − 0 = 2 seconds. -/
theorem c1_witness :
    WellFormed 0 sec8Items 15 ∧
    (get_timing_info (wfLog 0 sec8Items 15)).map TimingResult.setup_time_s = .ok 2 := by
  refine ⟨by decide, ?_⟩
  have h := c1_setup_time 0 15 ⟨2, "repoA", [(5, "database run-queries")]⟩
    [⟨9, "repoB", [(10, "database run-queries")]⟩] (by decide)
  simpa using h

/-- C2 counterexample: on the §8 log terminated by `Finishing: Complete job`
the job span is never closed — no job time is recorded and the second item
span stays open (only one entry in the per-item sequence). -/
theorem c2_counterexample :
    (get_timing_info sec8CompleteLog).map TimingResult.job_time = .ok none ∧
    (get_timing_info sec8CompleteLog).map (fun r => r.repo_times.length) = .ok 1 := by
  exact ⟨by decide, by decide⟩

/-- C2 (amended): the extractor closes the job span only on the debug line
`Finishing: Run query`; a `Finishing: Complete job` line matches no marker
and leaves the state unchanged, and the §8 scenario yields a recorded job
time (15 s) only with the `Run query` terminator. -/
theorem c2_job_end_markers :
    (∀ (s : S) (t : Int), step s ⟨t, "##[debug]Finishing: Complete job\n"⟩ = .ok s) ∧
    (get_timing_info sec8RunQueryLog).map TimingResult.job_time = .ok (some 15) := by
  exact ⟨fun s t => rfl, by decide⟩

/-- C3 counterexample: a two-item log with no Job-end marker does not fail —
the extractor returns a result (with two items) because the end-of-file
checks only test for zero items and zero item time. -/
theorem c3_counterexample :
    (get_timing_info unterminatedLog).map TimingResult.num_repos = .ok 2 := by
  decide

/-- C3 (amended): a log with no Job-end marker never yields a computed total
job time: whenever the extractor returns a result at all, the result's job
time is unset. -/
theorem c3_no_job_end_no_job_time (lines : List RawLine) (r : TimingResult)
    (hno : ∀ ln ∈ lines, isJobEndB ln.payload = false)
    (hr : get_timing_info lines = .ok r) :
    r.job_time = none := by
  unfold get_timing_info at hr
  cases hrun : runLines initState lines with
  | error e => rw [hrun] at hr; simp [Except.bind] at hr
  | ok s =>
    rw [hrun] at hr
    simp only [Except.bind] at hr
    have hjt : s.job_time = none :=
      runLines_ok_no_jobEnd_job_time lines initState s hno hrun
    split at hr
    · simp at hr
    · split at hr
      · simp at hr
      · simp only [Except.ok.injEq] at hr
        rw [← hr]
        exact hjt

/-- C3 witness: the amended claim applied to the unterminated two-item log,
on which the extractor returns a record with no job time. -/
theorem c3_witness :
    (∀ ln ∈ unterminatedLog, isJobEndB ln.payload = false) ∧
    (get_timing_info unterminatedLog).map TimingResult.job_time = .ok none := by
  refine ⟨by decide, ?_⟩
  obtain ⟨r, hr⟩ : ∃ r, get_timing_info unterminatedLog = .ok r := ⟨_, rfl⟩
  rw [hr, Except.map, c3_no_job_end_no_job_time unterminatedLog r (by decide) hr]

/-- C4: for every well-formed single-file log, setup time plus total
item-processing time equals the recorded total job time (exactly, in the
integer timestamp model). -/
theorem c4_setup_plus_item_eq_job (t0 tEnd : Int) (items : List Item)
    (h : WellFormed t0 items tEnd) :
    ∃ r, get_timing_info (wfLog t0 items tEnd) = .ok r ∧
      r.job_time = some (r.setup_time_s + r.repo_time_s) := by
  obtain ⟨hne, hk, hchain⟩ := h
  cases items with
  | nil => exact absurd rfl hne
  | cons f rest =>
    obtain ⟨h0, hEnd⟩ := wellFormed_bounds t0 tEnd f rest hchain
    obtain ⟨r, hok, -, hsetup, hrepo, -, hjt, -⟩ := wf_run_spec t0 tEnd f rest hk h0 hEnd
    refine ⟨r, hok, ?_⟩
    rw [hjt, hsetup, hrepo]
    congr 1
    ring

/-- C4 witness: on the §8 scenario, setup (2) plus item time (13) equals the
job time (15). -/
theorem c4_witness :
    WellFormed 0 sec8Items 15 ∧
    ∃ r, get_timing_info (wfLog 0 sec8Items 15) = .ok r ∧
      r.job_time = some (r.setup_time_s + r.repo_time_s) := by
  exact ⟨by decide, c4_setup_plus_item_eq_job 0 15 sec8Items (by decide)⟩

/-- C5: the subcommand classifier fails exactly when the payload contains
none of the known subcommand signatures; a payload naming the unlisted
subcommand `database export-diagnostics` fails (and makes the extractor
raise `UnrecognizedCommand`), and the same payload succeeds once that name
is added to the vocabulary list. -/
theorem c5_closed_world :
    (∀ l : String, extract_codeql_command l = none ↔
      ∀ c ∈ known_codeql_commands,
        pyIn ("codeql/codeql " ++ c) l = false ∧
        pyIn ("Running using CodeQL CLI: " ++ c) l = false) ∧
    extract_codeql_command badPayload = none ∧
    get_timing_info badCommandLog = .error (.unrecognizedCommand badPayload) ∧
    extract_codeql_command_over (known_codeql_commands ++ ["database export-diagnostics"])
      badPayload = some "database export-diagnostics" := by
  refine ⟨?_, by decide, by decide, by decide⟩
  intro l
  simp [extract_codeql_command, extract_codeql_command_over, List.find?_eq_none, not_or]

/-- C6: for every well-formed single-file log with N items, the result's
item count is N and the per-item (identifier, duration) sequence has
length N. -/
theorem c6_item_count (t0 tEnd : Int) (items : List Item)
    (h : WellFormed t0 items tEnd) :
    ∃ r, get_timing_info (wfLog t0 items tEnd) = .ok r ∧
      r.num_repos = items.length ∧ r.repo_times.length = items.length := by
  obtain ⟨hne, hk, hchain⟩ := h
  cases items with
  | nil => exact absurd rfl hne
  | cons f rest =>
    obtain ⟨h0, hEnd⟩ := wellFormed_bounds t0 tEnd f rest hchain
    obtain ⟨r, hok, hnum, -, -, -, -, hrt⟩ := wf_run_spec t0 tEnd f rest hk h0 hEnd
    exact ⟨r, hok, by rw [hnum]; rfl, by rw [hrt]; rfl⟩

/-- C6 witness: on the §8 scenario (N = 2) the result reports 2 items and a
length-2 per-item sequence. -/
theorem c6_witness :
    WellFormed 0 sec8Items 15 ∧
    ∃ r, get_timing_info (wfLog 0 sec8Items 15) = .ok r ∧
      r.num_repos = 2 ∧ r.repo_times.length = 2 := by
  exact ⟨by decide, c6_item_count 0 15 sec8Items (by decide)⟩

/-- C7: for every well-formed single-file log the reported download time is
the sum over items of the time from the item's begin marker to its first
tool invocation (an item with no tool invocation contributes nothing). -/
theorem c7_download_time (t0 tEnd : Int) (items : List Item)
    (h : WellFormed t0 items tEnd) :
    (get_timing_info (wfLog t0 items tEnd)).map TimingResult.download_time_s
      = .ok (sumDl items) := by
  obtain ⟨hne, hk, hchain⟩ := h
  cases items with
  | nil => exact absurd rfl hne
  | cons f rest =>
    obtain ⟨h0, hEnd⟩ := wellFormed_bounds t0 tEnd f rest hchain
    obtain ⟨r, hok, -, -, -, hdl, -, -⟩ := wf_run_spec t0 tEnd f rest hk h0 hEnd
    rw [hok, Except.map, hdl]

/-- C7 witness: on the §8 scenario download time is (5−2) + (10−9) = 4
seconds, as the spec computes. -/
theorem c7_witness :
    WellFormed 0 sec8Items 15 ∧
    (get_timing_info (wfLog 0 sec8Items 15)).map TimingResult.download_time_s = .ok 4 := by
  refine ⟨by decide, ?_⟩
  have h := c7_download_time 0 15 sec8Items (by decide)
  simpa using h

/-- C8: whenever the line loop completes and has seen zero items or
accumulated zero item time, the extractor raises one of its two final
errors (the spec's EmptyResult) instead of returning a result. -/
theorem c8_empty_result (lines : List RawLine) (s : S)
    (hrun : runLines initState lines = .ok s)
    (h : s.num_repos = 0 ∨ s.repo_time_s = 0) :
    ∃ e, get_timing_info lines = .error e ∧ e.isEmptyResult = true := by
  unfold get_timing_info
  rw [hrun]
  simp only [Except.bind]
  rcases h with h0 | h0
  · rw [if_pos h0]
    exact ⟨.noRepos, rfl, rfl⟩
  · by_cases hn : s.num_repos = 0
    · rw [if_pos hn]
      exact ⟨.noRepos, rfl, rfl⟩
    · rw [if_neg hn, if_pos h0]
      exact ⟨.noRepoTime, rfl, rfl⟩

/-- C8 witness: the empty log parses to the initial state (zero items) and
the extractor raises an EmptyResult error. -/
theorem c8_witness :
    runLines initState [] = .ok initState ∧
    ∃ e, get_timing_info [] = .error e ∧ e.isEmptyResult = true := by
  exact ⟨rfl, c8_empty_result [] initState rfl (Or.inl rfl)⟩

/-- C9 counterexample: a log opening with a tool invocation (no prior
Job-start or Item-begin) need not fail with MalformedSpan — with later
Item-begin markers the extractor parses it successfully. -/
theorem c9_counterexample :
    (get_timing_info toolFirstRescuedLog).map TimingResult.num_repos = .ok 2 := by
  decide

/-- C9 (amended): when no Item-begin marker occurs anywhere in the file,
every tool invocation is recognised, and a Job-end marker occurs (as in a
log whose only markers are tool invocations and the Job-end), the extractor
fails with MalformedSpan: the item close implied by Job-end finds no open
item span. -/
theorem c9_malformed_span (lines : List RawLine)
    (hni : ∀ ln ∈ lines, isItemBeginB ln.payload = false)
    (htool : ∀ ln ∈ lines, isToolInvocationB ln.payload = true →
      (extract_codeql_command ln.payload).isSome = true)
    (hex : ∃ ln ∈ lines, isJobEndB ln.payload = true) :
    ∃ e, get_timing_info lines = .error e ∧ e.isMalformedSpan = true := by
  have h := runLines_noItem_jobEnd_fails lines initState rfl hni htool hex
  refine ⟨.noneSub, ?_, rfl⟩
  unfold get_timing_info
  rw [h]
  rfl

/-- C9 witness: the amended claim applied to the log whose only markers are
one recognised tool invocation and the Job-end. -/
theorem c9_witness :
    (∀ ln ∈ toolThenEndLog, isItemBeginB ln.payload = false) ∧
    (∃ ln ∈ toolThenEndLog, isJobEndB ln.payload = true) ∧
    ∃ e, get_timing_info toolThenEndLog = .error e ∧ e.isMalformedSpan = true := by
  exact ⟨by decide, by decide, c9_malformed_span _ (by decide) (by decide) (by decide)⟩

/-- C10: if the first item begins exactly at the job-start timestamp, the
setup accumulator (still zero) is treated as unset, and setup time is
recorded at the next Item-begin marker as the elapsed time from job start
to that later marker. -/
theorem c10_zero_setup_deferred (t0 t1 t2 : Int) (a b : String) (h : t2 ≠ t0) :
    (get_timing_info
        [jobStartLine t0, itemBeginLine t0 a, itemBeginLine t1 b, jobEndLine t2]).map
      TimingResult.setup_time_s = .ok (t1 - t0) := by
  obtain ⟨s1, hstep1, f_num, f_setup, f_repo, f_dl, f_rt, f_sj, f_sr, ⟨cr1, hcr1⟩, f_sd, f_jt⟩ :=
    stepItemBegin_first_spec { initState with starting_job := some t0 } t0
      (itemBeginLine t0 a).payload t0 rfl rfl rfl
  obtain ⟨s2, hstep2, g_setup, g_repo, g_sr, ⟨cr2, hcr2⟩, g_sj, g_num, g_jt⟩ :=
    stepItemBegin_zero_setup_spec s1 t1 (itemBeginLine t1 b).payload cr1 t0 t0
      hcr1 f_sr (by rw [f_setup]; ring) (by rw [f_sj])
  obtain ⟨s3, hstep3, e_num, e_setup, e_repo, e_dl, e_rtlen, e_jt⟩ :=
    stepJobEnd_spec s2 t2 t1 t0 g_sr (by rw [g_sj, f_sj])
  have hline1 : step { initState with starting_job := some t0 } (itemBeginLine t0 a)
      = .ok s1 := by
    rw [step_of_itemBegin _ _ (isJobStartB_itemBegin t0 a) (isItemBeginB_itemBegin t0 a),
      itemBeginLine_t]
    exact hstep1
  have hline2 : step s1 (itemBeginLine t1 b) = .ok s2 := by
    rw [step_of_itemBegin _ _ (isJobStartB_itemBegin t1 b) (isItemBeginB_itemBegin t1 b),
      itemBeginLine_t]
    exact hstep2
  have hline3 : step s2 (jobEndLine t2) = .ok s3 := by
    rw [step_jobEndLine]; exact hstep3
  have hfull : runLines initState
      [jobStartLine t0, itemBeginLine t0 a, itemBeginLine t1 b, jobEndLine t2] = .ok s3 := by
    simp [runLines, Except.bind, step_jobStartLine, hline1, hline2, hline3]
  have hnum3 : ¬ s3.num_repos = 0 := by
    rw [e_num, g_num, f_num]
    simp [initState]
  have hrepo3 : ¬ s3.repo_time_s = 0 := by
    rw [e_repo, g_repo, f_repo]
    simp [initState]
    omega
  unfold get_timing_info
  rw [hfull]
  simp only [Except.bind]
  rw [if_neg hnum3, if_neg hrepo3, Except.map]
  rw [e_setup, g_setup]

/-- C10 witness: job start at 0, first item also at 0, second item at 3,
job end at 10 — the recorded setup time is 3 − 0 = 3. -/
theorem c10_witness :
    (10 : Int) ≠ 0 ∧
    (get_timing_info
        [jobStartLine 0, itemBeginLine 0 "repoA", itemBeginLine 3 "repoB", jobEndLine 10]).map
      TimingResult.setup_time_s = .ok 3 := by
  refine ⟨by decide, ?_⟩
  have h := c10_zero_setup_deferred 0 3 10 "repoA" "repoB" (by decide)
  simpa using h

example : (get_timing_info sec8CompleteLog).map TimingResult.setup_time_s = .ok 2 := by decide
example : (get_timing_info sec8CompleteLog).map TimingResult.job_time = .ok none := by decide
example : (get_timing_info sec8CompleteLog).map TimingResult.download_time_s = .ok 4 := by decide
example : (get_timing_info sec8RunQueryLog).map TimingResult.job_time = .ok (some 15) := by decide
example : (get_timing_info sec8RunQueryLog).map TimingResult.setup_time_s = .ok 2 := by decide
example : (get_timing_info sec8RunQueryLog).map TimingResult.repo_time_s = .ok 13 := by decide
example : (get_timing_info unterminatedLog).map TimingResult.num_repos = .ok 2 := by decide
example : get_timing_info badCommandLog = .error (.unrecognizedCommand badPayload) := by decide
example : (get_timing_info toolFirstRescuedLog).map TimingResult.num_repos = .ok 2 := by decide
example : get_timing_info toolThenEndLog = .error .noneSub := by decide
example : get_timing_info (wfLog 0 sec8Items 15) = get_timing_info sec8RunQueryLog := by decide
example : WellFormed 0 sec8Items 15 := by decide

end VariantAnalysis
